import Mathlib

/-!
Verification of the `son-cli` descriptor validator (`src/son/validate/validate.py`).

The development shallowly embeds the `Validator` class: its configuration
(`configure`), the stage-dependency assertion (`_assert_configuration`), the
three entry points (`validate_project`, `validate_service`,
`validate_function`), the integrity checks, the topology analysis and the
single-branch cycle detector (`_find_graph_cycles`).

The descriptor entities of `son.validate.objects` (DescriptorStorage, Service,
Function) and the helpers of `son.validate.util` (`list_files`,
`read_descriptor_files`, `build_descriptor_id`) are not part of the sources
under inspection; their observable interface is modelled from the spec and
passed to the validator as explicit data (structures `ServiceData`, `FunData`,
`Env`).  Python's `None`-or-`True` return convention is rendered as
`Option Bool`; the mutation of `self._warnings_count` is rendered as explicit
state passing of a `Nat`; `sys.exit` and uncaught exceptions are rendered as
the `aborted` and `crashed` constructors of `RunResult`.
-/

namespace SonValidate

/-- Truthiness of the `None`-or-`True` results the validator's stage functions
produce (`if not result: ...` in Python). -/
def truthy : Option Bool → Bool
  | some true => true
  | _ => false

/-- Embedding of Python's `s.split(':')` (`CXPT_KEY_SEPARATOR = ':'`) on the
character list underlying the string: every maximal run between colons becomes
a token, so the result is always non-empty, and a key without a colon yields
exactly one token. -/
def splitColonAux : List Char → List Char → List String
  | [], acc => [String.mk acc.reverse]
  | c :: rest, acc =>
    if c = ':' then String.mk acc.reverse :: splitColonAux rest []
    else splitColonAux rest (c :: acc)

/-- Python `iface.split(':')`. -/
def splitColon (s : String) : List String :=
  splitColonAux s.data []

/-- The mutable configuration fields of a `Validator` instance set in
`__init__`: `_syntax`, `_integrity`, `_topology`, `_dpath`, `_dext`,
`_log_level` (the `syntax` field is called `syn` because `syntax` is a Lean
keyword). -/
structure Validator where
  syn : Bool
  integrity : Bool
  topology : Bool
  dpath : String
  dext : String
  log_level : String
deriving DecidableEq, Repr

/-- The state of a fresh `Validator()` built with the virtual workspace:
all three stages enabled, `_dpath = '.'`, `_dext` the workspace default
descriptor extension `'yml'` (`workspace.py`, `load_default_config`), and the
workspace default log level `'INFO'`. -/
def initValidator : Validator :=
  { syn := true, integrity := true, topology := true,
    dpath := ".", dext := "yml", log_level := "INFO" }

/-- Embedding of `Validator.configure`.  Each `None` argument leaves the
corresponding field untouched; a truthy `log_level` argument only calls
`coloredlogs.set_level`, whose global level is threaded explicitly as the
`clog` argument and the second component of the result, while the stored
`_log_level` field is not assigned. -/
def configure (v : Validator) (clog : String)
    (syn integrity topology : Option Bool)
    (dpath dext log_level : Option String) : Validator × String :=
  let v := match syn with | some b => { v with syn := b } | none => v
  let v := match integrity with | some b => { v with integrity := b } | none => v
  let v := match topology with | some b => { v with topology := b } | none => v
  let v := match dext with | some s => { v with dext := s } | none => v
  let v := match dpath with | some s => { v with dpath := s } | none => v
  let clog := match log_level with
    | some s => if s ≠ "" then s else clog
    | none => clog
  (v, clog)

/-- The three callers `_assert_configuration` accepts (its reflective
`inspect.stack()` check). -/
inductive Caller where
  | validate_project
  | validate_service
  | validate_function
deriving DecidableEq, Repr

/-- The distinct `sys.exit(1)` paths of `_assert_configuration`. -/
inductive AbortReason where
  | integrityWithoutSyn
  | topologyWithoutIntegrity
  | missingServiceParams
deriving DecidableEq, Repr

/-- Embedding of `Validator._assert_configuration`, as invoked from one of the
three legitimate callers: the two general stage-dependency rules first, then
the service-scope parameter check (`self._dpath and self._dext`, Python string
truthiness).  `some r` models `sys.exit(1)` on the corresponding path, `none`
models falling through. -/
def assert_configuration (caller : Caller) (v : Validator) : Option AbortReason :=
  if v.integrity ∧ ¬v.syn then some .integrityWithoutSyn
  else if v.topology ∧ ¬v.integrity then some .topologyWithoutIntegrity
  else
    match caller with
    | .validate_project => none
    | .validate_service =>
      if (v.integrity ∨ v.topology) ∧ ¬(v.dpath ≠ "" ∧ v.dext ≠ "") then
        some .missingServiceParams
      else none
    | .validate_function => none

/-- Modelled from the spec: the composite descriptor id built by
`build_descriptor_id` of `son.validate.util` (not in the inspected sources)
from the vendor/name/version triple; the spec requires the composition to be
deterministic and injective, which the triple itself is. -/
def DescId := String × String × String
deriving DecidableEq, Repr

/-- Modelled from the spec: one entry of the `network_functions` list of a
service descriptor, carrying `vnf_vendor`, `vnf_name`, `vnf_version` and
`vnf_id`. -/
structure FunEntry where
  vnf_vendor : String
  vnf_name : String
  vnf_version : String
  vnf_id : String
deriving DecidableEq, Repr

/-- Modelled from the spec: a virtual link as exposed by the entities of
`son.validate.objects` — the validator only reads `link.iface_pair`, the
connection-point keys of the link. -/
structure Link where
  ifaces : List String
deriving DecidableEq, Repr

/-- An undirected graph in the style of `networkx.Graph` as the validator uses
it: `nodes` in insertion order, `edges` in insertion order, each undirected
edge stored once. -/
structure NGraph where
  nodes : List String
  edges : List (String × String)
deriving DecidableEq, Repr

/-- The empty `nx.Graph()`. -/
def NGraph.empty : NGraph := ⟨[], []⟩

/-- Whether the undirected edge between `a` and `b` is present. -/
def NGraph.hasEdge (g : NGraph) (a b : String) : Bool :=
  g.edges.any (fun e => (e.1 = a ∧ e.2 = b) ∨ (e.1 = b ∧ e.2 = a))

/-- Add a node, keeping insertion order and ignoring duplicates. -/
def NGraph.addNode (g : NGraph) (n : String) : NGraph :=
  if g.nodes.contains n then g else { g with nodes := g.nodes ++ [n] }

/-- Add an undirected edge (and its endpoints), ignoring duplicates. -/
def NGraph.addEdge (g : NGraph) (a b : String) : NGraph :=
  let g := (g.addNode a).addNode b
  if g.hasEdge a b then g else { g with edges := g.edges ++ [(a, b)] }

/-- `graph.neighbors(node)` of networkx 1.x: the adjacent nodes as a list, in
the order the incident edges were inserted. -/
def NGraph.neighbors (g : NGraph) (n : String) : List String :=
  g.edges.foldl
    (fun acc e =>
      if e.1 = n then acc ++ [e.2]
      else if e.2 = n then acc ++ [e.1]
      else acc) []

/-- `fpg.add_path(trace)`: add every node of the trace and an edge between each
pair of consecutive hops. -/
def addPathAux (g : NGraph) : List String → NGraph
  | [] => g
  | [n] => g.addNode n
  | a :: b :: rest => addPathAux (g.addEdge a b) (b :: rest)

/-- The graph `nx.Graph(); fpg.add_path(trace)` built for a forwarding-path
trace. -/
def addPathGraph (trace : List String) : NGraph :=
  addPathAux NGraph.empty trace

/-- Embedding of the recursive body of `Validator._find_graph_cycles`.  The
walk moves to the first neighbor other than the node it just left, returns the
backtrace slice from the first occurrence of a revisited node, and reports
nothing when the current node has no eligible neighbor.  The `fuel` argument
only bounds the recursion depth Python obtains for free; each recursive call
appends a fresh node to the backtrace, so `g.nodes.length + 1` units are never
exhausted on a graph whose edges connect its listed nodes. -/
def find_graph_cycles_rec (g : NGraph) :
    Nat → String → Option String → List String → Option (List String)
  | 0, _, _, _ => none
  | fuel + 1, node, prev_node, backtrace =>
    let nbrs0 := g.neighbors node
    let nbrs := match prev_node with
      | some p => if p ≠ "" then nbrs0.erase p else nbrs0
      | none => nbrs0
    if ¬nbrs.length > 0 then none
    else if backtrace.contains node then
      some (backtrace.drop (backtrace.indexOf node))
    else
      match nbrs with
      | [] => none
      | nb :: _ => find_graph_cycles_rec g fuel nb (some node) (backtrace ++ [node])

/-- `Validator._find_graph_cycles(graph, node)` with the default
`prev_node=None`, `backtrace=None` arguments. -/
def find_graph_cycles (g : NGraph) (start : String) : Option (List String) :=
  find_graph_cycles_rec g (g.nodes.length + 1) start none []

/-- Modelled from the spec: the observable behavior of a `Function` entity of
`son.validate.objects` (not in the inspected sources), as the validator reads
it — loader outcomes, the unit-id set, the links, the built unit topology
graph, and the schema-gate verdict on its content. -/
structure FunData where
  id : String
  filename : String
  syn_ok : Bool
  load_interfaces_ok : Bool
  load_units_ok : Bool
  load_unit_interfaces_ok : Bool
  load_links_ok : Bool
  units : List String
  links : List (String × Link)
  graph : NGraph
deriving DecidableEq, Repr

/-- Modelled from the spec: the observable behavior of a `Service` entity of
`son.validate.objects` (not in the inspected sources), as the validator reads
it.  `network_functions` is the `'network_functions'` entry of the raw
content (`none` when the key is absent); `graph_connected` is the
`nx.is_connected` verdict on the graph `build_topology_graph` produces; each
`fw_paths` entry pairs a forwarding-path id with the trace
`service.trace_path` returns for it, `"BREAK"` markers included. -/
structure ServiceData where
  id : String
  syn_ok : Bool
  network_functions : Option (List FunEntry)
  load_interfaces_ok : Bool
  interfaces : List String
  load_links_ok : Bool
  links : List (String × Link)
  graph_connected : Bool
  load_fw_paths_ok : Bool
  fw_paths : List (String × List String)
deriving DecidableEq, Repr

/-- Modelled from the spec: the external collaborators of the validator.
`createService`/`createFunction` are the `DescriptorStorage` constructors
(`none` on parse failure; `createService none` is the call
`create_service(False)` that `validate_project` makes when the project has no
unique service descriptor); `pathVnfs` is
`read_descriptor_files(list_files(self._dpath, self._dext))`, the mapping from
composite descriptor id to descriptor file, for the configured directory and
extension; `isDir`/`listFilesOf` are `os.path.isdir` and
`list_files(path, self._dext)`, the latter returning plain descriptor files in
deterministic order. -/
structure Env where
  createService : Option String → Option ServiceData
  createFunction : String → Option FunData
  pathVnfs : List (DescId × String)
  isDir : String → Bool
  listFilesOf : String → List String

/-- Outcome of a validator call: `aborted` models `sys.exit(1)` from
`_assert_configuration`, `crashed` models an uncaught exception, and
`returned r w` models a normal return of the `None`-or-`True` value `r` with
`self._warnings_count` equal to `w`. -/
inductive RunResult where
  | aborted : AbortReason → RunResult
  | crashed : RunResult
  | returned : Option Bool → Nat → RunResult
deriving DecidableEq, Repr

/-- Embedding of `Validator._load_service_functions`.  Missing
`'network_functions'` key fails; a non-empty function list with an empty
descriptor directory fails; each entry's composite id must be a key of
`path_vnfs`, and the matching file is fed to `create_function` and associated
under the entry's `vnf_id` (the source performs no `None` check on the created
entity, hence the `Option FunData` association values).  The result is the
association list that `associate_function` builds up inside the service
entity, or `none` for the falsy return. -/
def load_service_functions_go (env : Env) :
    List FunEntry → List (String × Option FunData) →
    Option (List (String × Option FunData))
  | [], acc => some acc
  | e :: rest, acc =>
    let fid : DescId := (e.vnf_vendor, e.vnf_name, e.vnf_version)
    match env.pathVnfs.lookup fid with
    | none => none
    | some path =>
      load_service_functions_go env rest (acc ++ [(e.vnf_id, env.createFunction path)])

/-- `Validator._load_service_functions(service)`. -/
def load_service_functions (env : Env) (sd : ServiceData) :
    Option (List (String × Option FunData)) :=
  match sd.network_functions with
  | none => none
  | some functions =>
    if functions ≠ [] ∧ env.pathVnfs = [] then none
    else load_service_functions_go env functions []

/-- `service.mapped_function(vnf_id)` over the association list that
`_load_service_functions` built: the entity stored under the vnf id, if any. -/
def mapped_function (assoc : List (String × Option FunData)) (vnf_id : String) :
    Option FunData :=
  match assoc.lookup vnf_id with
  | some v => v
  | none => none

/-- One connection-point key of the service link-integrity loop
(`_validate_service_integrity`, lines 312–328): a key that is a declared
service interface passes; otherwise it must split into exactly two tokens and
its first token must map to a truthy associated function. -/
def ifaceDangling (interfaces : List String)
    (assoc : List (String × Option FunData)) (iface : String) : Bool :=
  if interfaces.contains iface then false
  else
    let tokens := splitColon iface
    if tokens.length ≠ 2 then true
    else
      match mapped_function assoc (tokens.headD "") with
      | some _ => false
      | none => true

/-- The `for lid, link in service.links.items()` loop of
`_validate_service_integrity`: `false` models the early falsy return at the
first dangling connection point. -/
def check_service_links (interfaces : List String)
    (assoc : List (String × Option FunData)) :
    List (String × Link) → Bool
  | [] => true
  | (_, link) :: rest =>
    if link.ifaces.any (ifaceDangling interfaces assoc) then false
    else check_service_links interfaces assoc rest

/-- One connection-point key of the function link-integrity loop
(`_validate_function_integrity`, lines 372–383): only keys that split into
more than one token are checked, and then their first token must be a loaded
unit id. -/
def unitKeyBad (units : List String) (iface : String) : Bool :=
  let tokens := splitColon iface
  tokens.length > 1 && !(units.contains (tokens.headD ""))

/-- The `for lid, link in function.links.items()` loop of
`_validate_function_integrity`. -/
def check_function_links (units : List String) : List (String × Link) → Bool
  | [] => true
  | (_, link) :: rest =>
    if link.ifaces.any (unitKeyBad units) then false
    else check_function_links units rest

/-- Embedding of `Validator._validate_function_integrity`: the four loaders in
source order, then the link loop; `none` models every falsy early return. -/
def validate_function_integrity (f : FunData) : Option Bool :=
  if ¬f.load_interfaces_ok then none
  else if ¬f.load_units_ok then none
  else if ¬f.load_unit_interfaces_ok then none
  else if ¬f.load_links_ok then none
  else if ¬check_function_links f.units f.links then none
  else some true

/-- Embedding of `Validator._validate_function_topology`: the cycle check
starts at `function.graph.nodes()[0]`, an unguarded index; the outer `none`
models the `IndexError` this raises on an empty graph.  A non-empty cycle
increments the warning counter and the stage still returns `True`. -/
def validate_function_topology (f : FunData) (w : Nat) :
    Option (Option Bool × Nat) :=
  match f.graph.nodes.head? with
  | none => none
  | some start =>
    match find_graph_cycles f.graph start with
    | some cycles =>
      if cycles.length > 0 then some (some true, w + 1) else some (some true, w)
    | none => some (some true, w)

/-- The `for fpid, fw_path in service.fw_paths.items()` loop of
`_validate_service_topology`: a trace holding a `"BREAK"` marker is skipped
with a warning log; otherwise the trace's path graph is searched for cycles
from `fpg.nodes()[0]` (the outer `none` models the `IndexError` of that index
on an empty trace) and a non-empty cycle increments the warning counter. -/
def analyse_fw_paths : List (String × List String) → Nat → Option Nat
  | [], w => some w
  | (_, trace) :: rest, w =>
    if trace.contains "BREAK" then analyse_fw_paths rest w
    else
      let fpg := addPathGraph trace
      match fpg.nodes.head? with
      | none => none
      | some start =>
        match find_graph_cycles fpg start with
        | some cycles =>
          if cycles.length > 0 then analyse_fw_paths rest (w + 1)
          else analyse_fw_paths rest w
        | none => analyse_fw_paths rest w

/-- Embedding of `Validator._validate_service_topology`: the graph build and
the `nx.is_connected` check only log (`sd.graph_connected` is read by
nothing), a failing `load_forwarding_paths` is the only falsy return, the
forwarding paths are analysed for cycles, and the stage returns `True`. -/
def validate_service_topology (sd : ServiceData) (w : Nat) :
    Option (Option Bool × Nat) :=
  if ¬sd.load_fw_paths_ok then some (none, w)
  else
    match analyse_fw_paths sd.fw_paths w with
    | none => none
    | some w' => some (some true, w')

/-- The single-file branch of `Validator.validate_function`: entity creation,
then the syntax, integrity and topology stages gated by the configured flags,
each falsy stage short-circuiting with a falsy return. -/
def validate_function_file (v : Validator) (env : Env) (path : String) (w : Nat) :
    Option (Option Bool × Nat) :=
  match env.createFunction path with
  | none => some (none, w)
  | some f =>
    if v.syn ∧ ¬f.syn_ok then some (none, w)
    else if v.integrity ∧ ¬truthy (validate_function_integrity f) then some (none, w)
    else if v.topology then
      match validate_function_topology f w with
      | none => none
      | some (r, w') =>
        if ¬truthy r then some (none, w') else some (some true, w')
    else some (some true, w)

/-- The directory branch of `Validator.validate_function`: each listed file is
validated in order (each inner call re-runs `_assert_configuration`, which
passed identically for the enclosing call, so the single-file body is invoked
directly); the first falsy file makes the whole call return `None`.  The
second component records the files on which validation was attempted, in
order. -/
def validate_function_files (v : Validator) (env : Env) :
    List String → Nat → Option (Option Bool × Nat) × List String
  | [], w => (some (some true, w), [])
  | f :: fs, w =>
    match validate_function_file v env f w with
    | none => (none, [f])
    | some (r, w') =>
      if ¬truthy r then (some (none, w'), [f])
      else
        let rest := validate_function_files v env fs w'
        (rest.1, f :: rest.2)

/-- Embedding of `Validator.validate_function`: the configuration assertion,
then the directory dispatch on `os.path.isdir`. -/
def validate_function (v : Validator) (env : Env) (path : String) (w : Nat) :
    RunResult :=
  match assert_configuration .validate_function v with
  | some r => .aborted r
  | none =>
    if env.isDir path then
      match (validate_function_files v env (env.listFilesOf path) w).1 with
      | none => .crashed
      | some (r, w') => .returned r w'
    else
      match validate_function_file v env path w with
      | none => .crashed
      | some (r, w') => .returned r w'

/-- The `for fid, function in service.functions.items()` loop of
`_validate_service_integrity`: every associated function descriptor is fed
back through `validate_function` on its filename; an association holding
`None` (a `create_function` parse failure the source never checks) crashes on
`function.filename`. -/
def validate_assoc_functions (v : Validator) (env : Env) :
    List (String × Option FunData) → Nat → RunResult
  | [], w => .returned (some true) w
  | (_, none) :: _, _ => .crashed
  | (_, some f) :: rest, w =>
    match validate_function v env f.filename w with
    | .aborted r => .aborted r
    | .crashed => .crashed
    | .returned r w' =>
      if ¬truthy r then .returned none w'
      else validate_assoc_functions v env rest w'

/-- Embedding of `Validator._validate_service_integrity`: function loading,
the interface and link loaders, the dangling-connection-point loop, then the
recursive validation of every associated function descriptor. -/
def validate_service_integrity (v : Validator) (env : Env) (sd : ServiceData)
    (w : Nat) : RunResult :=
  match load_service_functions env sd with
  | none => .returned none w
  | some assoc =>
    if ¬sd.load_interfaces_ok then .returned none w
    else if ¬sd.load_links_ok then .returned none w
    else if ¬check_service_links sd.interfaces assoc sd.links then .returned none w
    else validate_assoc_functions v env assoc w

/-- Embedding of `Validator.validate_service`: the configuration assertion,
entity creation, then the syntax, integrity and topology stages gated by the
configured flags, each falsy stage short-circuiting with a falsy return. -/
def validate_service (v : Validator) (env : Env) (nsd_file : Option String)
    (w : Nat) : RunResult :=
  match assert_configuration .validate_service v with
  | some r => .aborted r
  | none =>
    match env.createService nsd_file with
    | none => .returned none w
    | some sd =>
      if v.syn ∧ ¬sd.syn_ok then .returned none w
      else
        match
          (if v.integrity then validate_service_integrity v env sd w
           else .returned (some true) w) with
        | .aborted r => .aborted r
        | .crashed => .crashed
        | .returned r1 w1 =>
          if ¬truthy r1 then .returned none w1
          else if v.topology then
            match validate_service_topology sd w1 with
            | none => .crashed
            | some (r2, w2) =>
              if ¬truthy r2 then .returned none w2 else .returned (some true) w2
          else .returned (some true) w1

/-- Modelled from the spec: the data `validate_project` reads off a project —
the VNFD root directory, the project descriptor extension, and the service
descriptor candidates `project.get_ns_descriptor()` finds. -/
structure ProjectEnv where
  vnfdRoot : String
  descriptorExtension : String
  nsdFiles : List String
deriving DecidableEq, Repr

/-- Embedding of `Validator._load_project_service_file`: `none` models the
`False` returned when zero or more than one candidate is found. -/
def load_project_service_file (p : ProjectEnv) : Option String :=
  match p.nsdFiles with
  | [] => none
  | [f] => some f
  | _ :: _ :: _ => none

/-- Embedding of `Validator.validate_project`: the configuration assertion,
then `_dpath`/`_dext` are overwritten from the project and the resolved
service descriptor (`False` included) is delegated to `validate_service`. -/
def validate_project (v : Validator) (env : Env) (p : ProjectEnv) (w : Nat) :
    RunResult :=
  match assert_configuration .validate_project v with
  | some r => .aborted r
  | none =>
    let v' := { v with dpath := p.vnfdRoot, dext := p.descriptorExtension }
    validate_service v' env (load_project_service_file p) w

/-- The returned value of a stage result, warnings dropped. -/
def statusOf (o : Option (Option Bool × Nat)) : Option (Option Bool) :=
  o.map (·.1)

/-- The returned value of a run, warnings dropped (`none` for aborts and
crashes). -/
def runStatus : RunResult → Option (Option Bool)
  | .returned r _ => some r
  | _ => none

/-- Shift the warning count of a stage result. -/
def oshift (w : Nat) (o : Option (Option Bool × Nat)) : Option (Option Bool × Nat) :=
  o.map (fun p => (p.1, w + p.2))

/-- Shift the warning count of a run result. -/
def rshift (w : Nat) : RunResult → RunResult
  | .returned r d => .returned r (w + d)
  | x => x

/-- Whether a single descriptor file passes `validate_function` (warnings
start irrelevant, see the shift lemmas). -/
def fileOk (v : Validator) (env : Env) (f : String) : Bool :=
  decide (statusOf (validate_function_file v env f 0) = some (some true))

/-- Whether the cycle analysis of `_validate_service_topology` finds a
non-empty cycle on a forwarding-path trace. -/
def pathCycleFound (trace : List String) : Bool :=
  match (addPathGraph trace).nodes.head? with
  | none => false
  | some start =>
    match find_graph_cycles (addPathGraph trace) start with
    | some c => decide (c.length > 0)
    | none => false

/-- Whether the cycle analysis of `_validate_function_topology` finds a
non-empty cycle on a function graph. -/
def graphCycleFound (g : NGraph) : Bool :=
  match g.nodes.head? with
  | none => false
  | some start =>
    match find_graph_cycles g start with
    | some c => decide (c.length > 0)
    | none => false

/-- The number of forwarding paths on which the topology stage increments the
warning counter: BREAK-free traces whose path graph shows a cycle. -/
def cycleWarnCount (fws : List (String × List String)) : Nat :=
  (fws.filter (fun p => !(p.2.contains "BREAK") && pathCycleFound p.2)).length

/-- A fresh validator reconfigured with stage flags only (`configure` with all
other arguments `None`), as the stage-dependency claims quantify over. -/
def configuredFlags (sa ia ta : Option Bool) : Validator :=
  (configure initValidator "INFO" sa ia ta none none none).1

/-- A 3-node ring graph A–B–C–A. -/
def ringGraph : NGraph :=
  ⟨["A", "B", "C"], [("A", "B"), ("B", "C"), ("C", "A")]⟩

/-- A 5-node tree (path A–B–C–D with the extra leaf E on B). -/
def treeGraph : NGraph :=
  ⟨["A", "B", "C", "D", "E"], [("A", "B"), ("B", "C"), ("C", "D"), ("B", "E")]⟩

/-- An environment in which every external lookup comes up empty. -/
def defEnv : Env :=
  { createService := fun _ => none,
    createFunction := fun _ => none,
    pathVnfs := [],
    isDir := fun _ => false,
    listFilesOf := fun _ => [] }

/-- A well-formed single-unit function descriptor entity. -/
def unitFun : FunData :=
  { id := "vnf1", filename := "f1.yml", syn_ok := true,
    load_interfaces_ok := true, load_units_ok := true,
    load_unit_interfaces_ok := true, load_links_ok := true,
    units := ["vdu01"], links := [],
    graph := ⟨["vdu01:eth0"], []⟩ }

/-- A function descriptor entity whose built topology graph is empty. -/
def emptyGraphFun : FunData :=
  { unitFun with id := "vnf0", filename := "f0.yml", units := [],
                 graph := NGraph.empty }

/-- The single-unit function with one link using a qualified and an
unqualified connection-point key. -/
def linkedFun : FunData :=
  { unitFun with links := [("l1", ⟨["vdu01:eth0", "mgmt"]⟩)] }

/-- A service descriptor entity whose `network_functions` list is present but
empty and whose every loader succeeds. -/
def emptyFnsService : ServiceData :=
  { id := "svc", syn_ok := true, network_functions := some [],
    load_interfaces_ok := true, interfaces := [],
    load_links_ok := true, links := [],
    graph_connected := true, load_fw_paths_ok := true, fw_paths := [] }

/-- The same service entity with the `network_functions` key absent. -/
def missingFnsService : ServiceData :=
  { emptyFnsService with network_functions := none }

/-- A service entity with a disconnected graph and one broken forwarding
path. -/
def warnService : ServiceData :=
  { emptyFnsService with graph_connected := false,
                         fw_paths := [("fp1", ["h1", "BREAK", "h2"])] }

/-- A service entity with one cyclic forwarding path (trace revisits its first
hop). -/
def cyclePathService : ServiceData :=
  { emptyFnsService with fw_paths := [("fp1", ["h1", "h2", "h3", "h1"])] }

/-- Environment serving `emptyFnsService`. -/
def emptyFnsEnv : Env :=
  { defEnv with createService := fun _ => some emptyFnsService }

/-- Environment serving `missingFnsService`. -/
def missingFnsEnv : Env :=
  { defEnv with createService := fun _ => some missingFnsService }

/-- Environment serving `cyclePathService`. -/
def cyclePathEnv : Env :=
  { defEnv with createService := fun _ => some cyclePathService }

/-- Environment with a descriptor directory of three files whose second fails
to parse. -/
def dirEnv : Env :=
  { defEnv with
    isDir := fun p => p == "vnfds",
    listFilesOf := fun _ => ["f1.yml", "f2.yml", "f3.yml"],
    createFunction := fun p => if p == "f2.yml" then none else some unitFun }

/-- A `validate_function` call whose configuration assertion passes never
exits the process. -/
theorem no_abort_validate_function (v : Validator) (env : Env) (p : String)
    (w : Nat) (h : assert_configuration .validate_function v = none)
    (r : AbortReason) : validate_function v env p w ≠ .aborted r := by
  simp only [validate_function, h]
  split
  · split <;> simp
  · split <;> simp

/-- The associated-function loop of `_validate_service_integrity` never exits
the process when the function-scope configuration assertion passes. -/
theorem no_abort_validate_assoc (v : Validator) (env : Env)
    (h : assert_configuration .validate_function v = none) :
    ∀ (assoc : List (String × Option FunData)) (w : Nat) (r : AbortReason),
      validate_assoc_functions v env assoc w ≠ .aborted r := by
  intro assoc
  induction assoc with
  | nil => intro w r; simp [validate_assoc_functions]
  | cons hd tl ih =>
    intro w r
    obtain ⟨vid, fo⟩ := hd
    cases fo with
    | none => simp [validate_assoc_functions]
    | some f =>
      simp only [validate_assoc_functions]
      cases hvf : validate_function v env f.filename w with
      | aborted r' => exact absurd hvf (no_abort_validate_function v env f.filename w h r')
      | crashed => simp
      | returned r1 w1 =>
        dsimp only
        split
        · simp
        · exact ih w1 r

/-- `_validate_service_integrity` never exits the process when the
function-scope configuration assertion passes. -/
theorem no_abort_validate_service_integrity (v : Validator) (env : Env)
    (h : assert_configuration .validate_function v = none)
    (sd : ServiceData) (w : Nat) (r : AbortReason) :
    validate_service_integrity v env sd w ≠ .aborted r := by
  simp only [validate_service_integrity]
  split
  · simp
  · split
    · simp
    · split
      · simp
      · split
        · simp
        · exact no_abort_validate_assoc v env h _ _ r

/-- A `validate_service` call whose configuration assertions pass never exits
the process. -/
theorem no_abort_validate_service (v : Validator) (env : Env)
    (hs : assert_configuration .validate_service v = none)
    (hf : assert_configuration .validate_function v = none)
    (nsd : Option String) (w : Nat) (r : AbortReason) :
    validate_service v env nsd w ≠ .aborted r := by
  simp only [validate_service, hs]
  split
  · simp
  · split
    · simp
    · split
      · rename_i r' heq
        cases hb : v.integrity with
        | false => rw [hb] at heq; simp at heq
        | true =>
          rw [hb] at heq
          simp only [if_true] at heq
          exact absurd heq (no_abort_validate_service_integrity v env hf _ w r')
      · simp
      · split
        · simp
        · split
          · split
            · simp
            · split <;> simp
          · simp

/-- C10: `configure` performs a partial update — every parameter passed as
`None` leaves its stored field at its previous value, each non-`None`
parameter overwrites exactly its own field, the stored `_log_level` field and
every other field are never modified, and only a truthy `log_level` argument
changes the external logger level. -/
theorem C10_configure_partial_update (v : Validator) (clog : String)
    (syn integrity topology : Option Bool) (dpath dext log_level : Option String) :
    (configure v clog syn integrity topology dpath dext log_level).1.syn = syn.getD v.syn ∧
    (configure v clog syn integrity topology dpath dext log_level).1.integrity =
      integrity.getD v.integrity ∧
    (configure v clog syn integrity topology dpath dext log_level).1.topology =
      topology.getD v.topology ∧
    (configure v clog syn integrity topology dpath dext log_level).1.dpath =
      dpath.getD v.dpath ∧
    (configure v clog syn integrity topology dpath dext log_level).1.dext =
      dext.getD v.dext ∧
    (configure v clog syn integrity topology dpath dext log_level).1.log_level =
      v.log_level ∧
    (configure v clog syn integrity topology dpath dext log_level).2 =
      (match log_level with
       | some s => if s ≠ "" then s else clog
       | none => clog) := by
  cases syn <;> cases integrity <;> cases topology <;>
    cases dpath <;> cases dext <;> cases log_level <;>
    simp [configure, Option.getD]

/-- C1: after reconfiguring a fresh validator with any combination of the
stage flags, a configuration violating a stage dependency (integrity without
syntax, or topology without integrity) makes every top-level call abort on the
corresponding fatal path of `_assert_configuration`, independent of every
environment; a configuration satisfying both dependencies passes the
configuration assertion for all three callers, and service- and
function-scoped validation never aborts. -/
theorem C1_stage_dependency_gate (sa ia ta : Option Bool) :
    ((((configuredFlags sa ia ta).integrity ∧ ¬(configuredFlags sa ia ta).syn) ∨
      ((configuredFlags sa ia ta).topology ∧ ¬(configuredFlags sa ia ta).integrity)) →
      ∃ r, (r = AbortReason.integrityWithoutSyn ∨ r = AbortReason.topologyWithoutIntegrity) ∧
        (∀ caller, assert_configuration caller (configuredFlags sa ia ta) = some r) ∧
        (∀ env nsd w, validate_service (configuredFlags sa ia ta) env nsd w = .aborted r) ∧
        (∀ env p w, validate_function (configuredFlags sa ia ta) env p w = .aborted r) ∧
        (∀ env penv w, validate_project (configuredFlags sa ia ta) env penv w = .aborted r)) ∧
    ((((configuredFlags sa ia ta).integrity → (configuredFlags sa ia ta).syn) ∧
      ((configuredFlags sa ia ta).topology → (configuredFlags sa ia ta).integrity)) →
      (∀ caller, assert_configuration caller (configuredFlags sa ia ta) = none) ∧
      (∀ env nsd w r, validate_service (configuredFlags sa ia ta) env nsd w ≠ .aborted r) ∧
      (∀ env p w r, validate_function (configuredFlags sa ia ta) env p w ≠ .aborted r)) := by
  have hdp : (configuredFlags sa ia ta).dpath = "." := by
    cases sa <;> cases ia <;> cases ta <;> rfl
  have hde : (configuredFlags sa ia ta).dext = "yml" := by
    cases sa <;> cases ia <;> cases ta <;> rfl
  constructor
  · intro hviol
    have hass : ∃ r,
        (r = AbortReason.integrityWithoutSyn ∨ r = AbortReason.topologyWithoutIntegrity) ∧
        ∀ caller, assert_configuration caller (configuredFlags sa ia ta) = some r := by
      rcases hviol with ⟨hi, hs⟩ | ⟨ht, hi⟩
      · refine ⟨.integrityWithoutSyn, Or.inl rfl, fun caller => ?_⟩
        unfold assert_configuration
        rw [if_pos ⟨hi, hs⟩]
      · refine ⟨.topologyWithoutIntegrity, Or.inr rfl, fun caller => ?_⟩
        unfold assert_configuration
        rw [if_neg (fun hc => hi hc.1), if_pos ⟨ht, hi⟩]
    obtain ⟨r, hr, hass⟩ := hass
    refine ⟨r, hr, hass, ?_, ?_, ?_⟩
    · intro env nsd w; simp only [validate_service, hass Caller.validate_service]
    · intro env p w; simp only [validate_function, hass Caller.validate_function]
    · intro env penv w; simp only [validate_project, hass Caller.validate_project]
  · intro hok
    have h1 : ¬((configuredFlags sa ia ta).integrity ∧ ¬(configuredFlags sa ia ta).syn) :=
      fun hc => hc.2 (hok.1 hc.1)
    have h2 : ¬((configuredFlags sa ia ta).topology ∧ ¬(configuredFlags sa ia ta).integrity) :=
      fun hc => hc.2 (hok.2 hc.1)
    have hass : ∀ caller, assert_configuration caller (configuredFlags sa ia ta) = none := by
      intro caller
      unfold assert_configuration
      rw [if_neg h1, if_neg h2]
      cases caller with
      | validate_project => rfl
      | validate_function => rfl
      | validate_service =>
        rw [if_neg]
        intro hc
        exact hc.2 ⟨by rw [hdp]; decide, by rw [hde]; decide⟩
    exact ⟨hass,
      fun env nsd w r =>
        no_abort_validate_service _ env (hass Caller.validate_service)
          (hass Caller.validate_function) nsd w r,
      fun env p w r => no_abort_validate_function _ env p w (hass Caller.validate_function) r⟩

/-- Witness for C1: with syntax disabled and integrity enabled, a concrete
`validate_service` call aborts with the integrity-without-syntax reason; with
the default flags, the configuration assertion passes for the service
caller. -/
theorem C1_stage_dependency_gate_witness :
    validate_service (configuredFlags (some false) (some true) none) defEnv (some "nsd.yml") 0 =
      RunResult.aborted AbortReason.integrityWithoutSyn ∧
    assert_configuration Caller.validate_service (configuredFlags none none none) = none := by
  constructor
  · obtain ⟨r, _, hass, hsv, _, _⟩ :=
      (C1_stage_dependency_gate (some false) (some true) none).1 (by decide)
    have h2 : assert_configuration Caller.validate_service
        (configuredFlags (some false) (some true) none) =
        some AbortReason.integrityWithoutSyn := by decide
    rw [hass Caller.validate_service] at h2
    rw [← Option.some_inj.mp h2]
    exact hsv defEnv (some "nsd.yml") 0
  · exact ((C1_stage_dependency_gate none none none).2 (by decide)).1 Caller.validate_service

/-- C5: the single-branch cycle detector, started at node A of the 3-node ring
A–B–C–A, returns a cycle whose node set is exactly A, B, C; started at any
node of the 5-node tree it returns no cycle. -/
theorem C5_cycle_detector_ring_and_tree :
    (∃ cyc, find_graph_cycles ringGraph "A" = some cyc ∧
      ∀ x, x ∈ cyc ↔ (x = "A" ∨ x = "B" ∨ x = "C")) ∧
    (∀ n, n ∈ treeGraph.nodes → find_graph_cycles treeGraph n = none) := by
  constructor
  · refine ⟨["A", "B", "C"], rfl, ?_⟩
    intro x
    simp
  · intro n hn
    simp only [treeGraph, List.mem_cons, List.not_mem_nil, or_false] at hn
    rcases hn with rfl | rfl | rfl | rfl | rfl <;> rfl

/-- Witness for C5: the tree clause applied at start node E. -/
theorem C5_cycle_detector_ring_and_tree_witness :
    find_graph_cycles treeGraph "E" = none :=
  C5_cycle_detector_ring_and_tree.2 "E" (by decide)

/-- C9: `_validate_function_topology` indexes `function.graph.nodes()[0]`
without a guard — the access is in bounds for every function whose built graph
has a node, and on an empty graph the embedded error branch is reached. -/
theorem C9_function_topology_start_node :
    (∀ (f : FunData) (w : Nat), f.graph.nodes ≠ [] →
      (validate_function_topology f w).isSome = true) ∧
    validate_function_topology emptyGraphFun 0 = none := by
  constructor
  · intro f w h
    unfold validate_function_topology
    cases hh : f.graph.nodes.head? with
    | none => exact absurd (List.head?_eq_none_iff.mp hh) h
    | some s =>
      dsimp only
      split
      · split <;> rfl
      · rfl
  · rfl

/-- Witness for C9: the in-bounds clause applied to a function whose graph has
one node. -/
theorem C9_function_topology_start_node_witness :
    (validate_function_topology unitFun 0).isSome = true :=
  C9_function_topology_start_node.1 unitFun 0 (by decide)

/-- A connection-point key passes the service link-integrity check exactly
when it is a declared service interface, or splits into exactly two tokens
whose first names an associated function. -/
theorem ifaceDangling_eq_false_iff (interfaces : List String)
    (assoc : List (String × Option FunData)) (iface : String) :
    ifaceDangling interfaces assoc iface = false ↔
      iface ∈ interfaces ∨
        ((splitColon iface).length = 2 ∧
          (mapped_function assoc ((splitColon iface).headD "")).isSome = true) := by
  unfold ifaceDangling
  by_cases hmem : interfaces.contains iface = true
  · rw [if_pos hmem]
    have hin : iface ∈ interfaces := by
      simpa using hmem
    simp [hin]
  · have hnotin : iface ∉ interfaces := by
      intro hin
      exact hmem (by simpa using hin)
    rw [if_neg hmem]
    by_cases hlen : (splitColon iface).length = 2
    · rw [if_neg (fun hc => hc hlen)]
      cases hmf : mapped_function assoc ((splitColon iface).headD "") with
      | some f => simp [hnotin, hlen, hmf]
      | none => simp [hnotin, hlen, hmf]
    · rw [if_pos hlen]
      simp [hnotin, hlen]

/-- The service link loop succeeds exactly when no link holds a dangling
connection-point key. -/
theorem check_service_links_eq_true_iff (interfaces : List String)
    (assoc : List (String × Option FunData)) (links : List (String × Link)) :
    check_service_links interfaces assoc links = true ↔
      ∀ l ∈ links, ∀ iface ∈ l.2.ifaces,
        ifaceDangling interfaces assoc iface = false := by
  induction links with
  | nil => simp [check_service_links]
  | cons hd tl ih =>
    obtain ⟨lid, link⟩ := hd
    simp only [check_service_links]
    by_cases hany : link.ifaces.any (ifaceDangling interfaces assoc) = true
    · rw [if_pos hany]
      simp only [List.any_eq_true] at hany
      obtain ⟨iface, hin, hbad⟩ := hany
      constructor
      · intro hfalse; exact absurd hfalse (by simp)
      · intro hall
        have h1 := hall (lid, link) (List.mem_cons_self _ _) iface hin
        rw [h1] at hbad
        exact Bool.noConfusion hbad
    · rw [if_neg hany, ih]
      have hno : ∀ iface ∈ link.ifaces, ifaceDangling interfaces assoc iface = false := by
        intro iface hin
        cases hdd : ifaceDangling interfaces assoc iface with
        | false => rfl
        | true => exact absurd (List.any_eq_true.mpr ⟨iface, hin, hdd⟩) hany
      constructor
      · intro htl l hl
        rcases List.mem_cons.mp hl with rfl | hl
        · exact hno
        · exact htl l hl
      · intro hall l hl
        exact hall l (List.mem_cons_of_mem _ hl)

/-- C4: in service integrity validation, every link's connection-point key
resolves either as a declared service-level interface or as a two-token
`vnf_id:name` key whose vnf id maps to an associated function — the link loop
passes exactly the services in which every key so resolves, and when a key
fails to resolve the integrity stage returns the falsy dangling-connection-
point failure. -/
theorem C4_service_link_integrity :
    (∀ (interfaces : List String) (assoc : List (String × Option FunData))
        (links : List (String × Link)),
      check_service_links interfaces assoc links = true ↔
        ∀ l ∈ links, ∀ iface ∈ l.2.ifaces,
          iface ∈ interfaces ∨
            ((splitColon iface).length = 2 ∧
              (mapped_function assoc ((splitColon iface).headD "")).isSome = true)) ∧
    (∀ (v : Validator) (env : Env) (sd : ServiceData) (w : Nat)
        (assoc : List (String × Option FunData)),
      load_service_functions env sd = some assoc →
      sd.load_interfaces_ok = true →
      sd.load_links_ok = true →
      check_service_links sd.interfaces assoc sd.links = false →
      validate_service_integrity v env sd w = .returned none w) := by
  constructor
  · intro interfaces assoc links
    rw [check_service_links_eq_true_iff]
    constructor
    · intro h l hl iface hin
      exact (ifaceDangling_eq_false_iff interfaces assoc iface).mp (h l hl iface hin)
    · intro h l hl iface hin
      exact (ifaceDangling_eq_false_iff interfaces assoc iface).mpr (h l hl iface hin)
  · intro v env sd w assoc hload hio hlo hchk
    simp only [validate_service_integrity, hload]
    rw [if_neg (by simp [hio]), if_neg (by simp [hlo]), if_pos (by simp [hchk])]

/-- Witness for C4: a service interface key and a resolvable qualified key
pass the link check; the falsy-failure clause fires on a concrete dangling
key. -/
theorem C4_service_link_integrity_witness :
    check_service_links ["mgmt"] [("vnf_a", some unitFun)]
      [("l1", ⟨["mgmt", "vnf_a:eth0"]⟩)] = true ∧
    validate_service_integrity initValidator defEnv
      { emptyFnsService with links := [("l1", ⟨["oops:a:b"]⟩)] } 0 =
      RunResult.returned none 0 := by
  constructor
  · exact (C4_service_link_integrity.1 ["mgmt"] [("vnf_a", some unitFun)]
      [("l1", ⟨["mgmt", "vnf_a:eth0"]⟩)]).mpr (by decide)
  · exact C4_service_link_integrity.2 initValidator defEnv
      { emptyFnsService with links := [("l1", ⟨["oops:a:b"]⟩)] } 0 [] rfl rfl rfl (by decide)

/-- The function link loop succeeds exactly when no link holds a qualified
key with an unknown unit id. -/
theorem check_function_links_eq_true_iff (units : List String)
    (links : List (String × Link)) :
    check_function_links units links = true ↔
      ∀ l ∈ links, ∀ iface ∈ l.2.ifaces, unitKeyBad units iface = false := by
  induction links with
  | nil => simp [check_function_links]
  | cons hd tl ih =>
    obtain ⟨lid, link⟩ := hd
    simp only [check_function_links]
    by_cases hany : link.ifaces.any (unitKeyBad units) = true
    · rw [if_pos hany]
      simp only [List.any_eq_true] at hany
      obtain ⟨iface, hin, hbad⟩ := hany
      constructor
      · intro hfalse; exact absurd hfalse (by simp)
      · intro hall
        have h1 := hall (lid, link) (List.mem_cons_self _ _) iface hin
        rw [h1] at hbad
        exact Bool.noConfusion hbad
    · rw [if_neg hany, ih]
      have hno : ∀ iface ∈ link.ifaces, unitKeyBad units iface = false := by
        intro iface hin
        cases hdd : unitKeyBad units iface with
        | false => rfl
        | true => exact absurd (List.any_eq_true.mpr ⟨iface, hin, hdd⟩) hany
      constructor
      · intro htl l hl
        rcases List.mem_cons.mp hl with rfl | hl
        · exact hno
        · exact htl l hl
      · intro hall l hl
        exact hall l (List.mem_cons_of_mem _ hl)

/-- A qualified key is bad exactly when it has more than one token and its
first token is not a loaded unit id. -/
theorem unitKeyBad_eq_false_iff (units : List String) (iface : String) :
    unitKeyBad units iface = false ↔
      ((splitColon iface).length > 1 → (splitColon iface).headD "" ∈ units) := by
  unfold unitKeyBad
  by_cases hlen : (splitColon iface).length > 1
  · simp [hlen]
  · simp [hlen]

/-- C6: with the four loaders succeeding, function-scope integrity fails
exactly when some link key splits into more than one token whose first token
is not a loaded unit id; keys without a colon never cause the failure. -/
theorem C6_function_link_integrity (f : FunData)
    (h1 : f.load_interfaces_ok = true) (h2 : f.load_units_ok = true)
    (h3 : f.load_unit_interfaces_ok = true) (h4 : f.load_links_ok = true) :
    (validate_function_integrity f = some true ↔
      ∀ l ∈ f.links, ∀ iface ∈ l.2.ifaces,
        ((splitColon iface).length > 1 → (splitColon iface).headD "" ∈ f.units)) ∧
    (validate_function_integrity f = none ↔
      ∃ l ∈ f.links, ∃ iface ∈ l.2.ifaces,
        (splitColon iface).length > 1 ∧ (splitColon iface).headD "" ∉ f.units) := by
  have hiff : check_function_links f.units f.links = true ↔
      ∀ l ∈ f.links, ∀ iface ∈ l.2.ifaces,
        ((splitColon iface).length > 1 → (splitColon iface).headD "" ∈ f.units) := by
    rw [check_function_links_eq_true_iff]
    constructor
    · intro h l hl i hi; exact (unitKeyBad_eq_false_iff _ _).mp (h l hl i hi)
    · intro h l hl i hi; exact (unitKeyBad_eq_false_iff _ _).mpr (h l hl i hi)
  unfold validate_function_integrity
  rw [if_neg (by simp [h1]), if_neg (by simp [h2]), if_neg (by simp [h3]),
      if_neg (by simp [h4])]
  by_cases hchk : check_function_links f.units f.links = true
  · rw [if_neg (fun hc => hc hchk)]
    refine ⟨⟨fun _ => hiff.mp hchk, fun _ => rfl⟩, ?_, ?_⟩
    · intro habs; exact absurd habs (by simp)
    · rintro ⟨l, hl, i, hi, hlen, hnm⟩
      exact absurd (hiff.mp hchk l hl i hi hlen) hnm
  · rw [if_pos hchk]
    have hex : ∃ l ∈ f.links, ∃ iface ∈ l.2.ifaces,
        (splitColon iface).length > 1 ∧ (splitColon iface).headD "" ∉ f.units := by
      have hnall : ¬ ∀ l ∈ f.links, ∀ iface ∈ l.2.ifaces,
          ((splitColon iface).length > 1 → (splitColon iface).headD "" ∈ f.units) :=
        fun hr => hchk (hiff.mpr hr)
      push_neg at hnall
      exact hnall
    refine ⟨⟨fun habs => absurd habs (by simp), fun hall => absurd (hiff.mpr hall) hchk⟩,
      fun _ => hex, fun _ => rfl⟩

/-- Witness for C6: a function with one qualified key naming its unit and one
bare key passes integrity. -/
theorem C6_function_link_integrity_witness :
    validate_function_integrity linkedFun = some true :=
  (C6_function_link_integrity linkedFun rfl rfl rfl rfl).1.mpr (by decide)

/-- C2 (amended): a service descriptor with no `network_functions` entry fails
the integrity stage with the missing-functions cause, for any topology flag
value; a `network_functions` list that is present but empty is accepted by the
function-loading step, which returns success with no associations. -/
theorem C2_missing_vs_empty_functions :
    (∀ (v : Validator) (env : Env) (nsd : Option String) (w : Nat) (sd : ServiceData),
      assert_configuration .validate_service v = none →
      env.createService nsd = some sd →
      (v.syn = true → sd.syn_ok = true) →
      v.integrity = true →
      sd.network_functions = none →
      validate_service v env nsd w = .returned none w) ∧
    (∀ (env : Env) (sd : ServiceData), sd.network_functions = some [] →
      load_service_functions env sd = some []) := by
  constructor
  · intro v env nsd w sd hass hcs hsyn hint hnf
    simp only [validate_service, hass, hcs]
    rw [if_neg (fun hc => hc.2 (hsyn hc.1))]
    rw [hint]
    simp only [if_true, validate_service_integrity, load_service_functions, hnf]
    rfl
  · intro env sd hnf
    simp only [load_service_functions, hnf]
    rw [if_neg (fun hc => hc.1 rfl)]
    rfl

/-- Witness for C2: a concrete service without the `network_functions` key
fails `validate_service` with no warning added. -/
theorem C2_missing_vs_empty_functions_witness :
    validate_service initValidator missingFnsEnv (some "nsd.yml") 0 =
      RunResult.returned none 0 :=
  C2_missing_vs_empty_functions.1 initValidator missingFnsEnv (some "nsd.yml") 0
    missingFnsService (by decide) rfl (fun _ => rfl) rfl rfl

/-- Counterexample for C2 as stated: a service whose `network_functions` list
is present but empty sails through `validate_service` with the integrity stage
enabled and returns success, instead of failing with a missing-functions
cause. -/
theorem C2_counterexample_empty_list_passes :
    emptyFnsService.network_functions = some [] ∧
    initValidator.integrity = true ∧
    validate_service initValidator emptyFnsEnv (some "nsd.yml") 0 =
      RunResult.returned (some true) 0 :=
  ⟨rfl, rfl, rfl⟩

/-- The forwarding-path analysis only adds to the warning counter it starts
from. -/
theorem analyse_fw_paths_shift (fws : List (String × List String)) :
    ∀ a b, analyse_fw_paths fws (a + b) =
      (analyse_fw_paths fws b).map (fun d => a + d) := by
  induction fws with
  | nil => intro a b; simp [analyse_fw_paths]
  | cons hd rest ih =>
    intro a b
    obtain ⟨fpid, trace⟩ := hd
    simp only [analyse_fw_paths]
    split
    · exact ih a b
    · cases hh : (addPathGraph trace).nodes.head? with
      | none => simp
      | some s =>
        dsimp only
        cases hfc : find_graph_cycles (addPathGraph trace) s with
        | some c =>
          dsimp only
          split
          · rw [Nat.add_assoc]
            exact ih a (b + 1)
          · exact ih a b
        | none => exact ih a b

/-- `_validate_service_topology` only adds to the warning counter it starts
from. -/
theorem validate_service_topology_shift (sd : ServiceData) (a b : Nat) :
    validate_service_topology sd (a + b) = oshift a (validate_service_topology sd b) := by
  unfold validate_service_topology
  split
  · simp [oshift]
  · rw [analyse_fw_paths_shift sd.fw_paths a b]
    cases analyse_fw_paths sd.fw_paths b <;> simp [oshift]

/-- `_validate_function_topology` only adds to the warning counter it starts
from. -/
theorem validate_function_topology_shift (f : FunData) (a b : Nat) :
    validate_function_topology f (a + b) = oshift a (validate_function_topology f b) := by
  unfold validate_function_topology
  cases f.graph.nodes.head? with
  | none => simp [oshift]
  | some s =>
    dsimp only
    cases find_graph_cycles f.graph s with
    | some c =>
      dsimp only
      split <;> simp [oshift, Nat.add_assoc]
    | none => simp [oshift]

/-- Single-file function validation only adds to the warning counter it starts
from. -/
theorem validate_function_file_shift (v : Validator) (env : Env) (p : String)
    (a b : Nat) :
    validate_function_file v env p (a + b) = oshift a (validate_function_file v env p b) := by
  unfold validate_function_file
  cases env.createFunction p with
  | none => simp [oshift]
  | some f =>
    dsimp only
    split
    · simp [oshift]
    · split
      · simp [oshift]
      · split
        · rw [validate_function_topology_shift f a b]
          cases validate_function_topology f b with
          | none => simp [oshift]
          | some rw' =>
            obtain ⟨r, w'⟩ := rw'
            dsimp [oshift]
            split <;> simp [oshift]
        · simp [oshift]

/-- The directory loop only adds to the warning counter it starts from, and
attempts the same files. -/
theorem validate_function_files_shift (v : Validator) (env : Env)
    (fs : List String) : ∀ a b,
    validate_function_files v env fs (a + b) =
      (oshift a (validate_function_files v env fs b).1,
       (validate_function_files v env fs b).2) := by
  induction fs with
  | nil => intro a b; simp [validate_function_files, oshift]
  | cons f fs ih =>
    intro a b
    simp only [validate_function_files]
    rw [validate_function_file_shift v env f a b]
    cases validate_function_file v env f b with
    | none => simp [oshift]
    | some rw' =>
      obtain ⟨r, w'⟩ := rw'
      dsimp [oshift]
      split
      · simp [oshift]
      · rw [ih a w']; simp [oshift]

/-- `validate_function` only adds to the warning counter it starts from. -/
theorem validate_function_shift (v : Validator) (env : Env) (p : String)
    (a b : Nat) :
    validate_function v env p (a + b) = rshift a (validate_function v env p b) := by
  unfold validate_function
  cases assert_configuration .validate_function v with
  | some r => simp [rshift]
  | none =>
    dsimp only
    split
    · rw [validate_function_files_shift v env (env.listFilesOf p) a b]
      cases (validate_function_files v env (env.listFilesOf p) b).1 with
      | none => simp [oshift, rshift]
      | some rw' => obtain ⟨r, w'⟩ := rw'; simp [oshift, rshift]
    · rw [validate_function_file_shift v env p a b]
      cases validate_function_file v env p b with
      | none => simp [oshift, rshift]
      | some rw' => obtain ⟨r, w'⟩ := rw'; simp [oshift, rshift]

/-- The associated-function loop only adds to the warning counter it starts
from. -/
theorem validate_assoc_functions_shift (v : Validator) (env : Env)
    (assoc : List (String × Option FunData)) : ∀ a b,
    validate_assoc_functions v env assoc (a + b) =
      rshift a (validate_assoc_functions v env assoc b) := by
  induction assoc with
  | nil => intro a b; simp [validate_assoc_functions, rshift]
  | cons hd tl ih =>
    intro a b
    obtain ⟨vid, fo⟩ := hd
    cases fo with
    | none => simp [validate_assoc_functions, rshift]
    | some f =>
      simp only [validate_assoc_functions]
      rw [validate_function_shift v env f.filename a b]
      cases validate_function v env f.filename b with
      | aborted r => simp [rshift]
      | crashed => simp [rshift]
      | returned r w' =>
        dsimp [rshift]
        split
        · simp [rshift]
        · exact ih a w'

/-- `_validate_service_integrity` only adds to the warning counter it starts
from. -/
theorem validate_service_integrity_shift (v : Validator) (env : Env)
    (sd : ServiceData) (a b : Nat) :
    validate_service_integrity v env sd (a + b) =
      rshift a (validate_service_integrity v env sd b) := by
  unfold validate_service_integrity
  cases load_service_functions env sd with
  | none => simp [rshift]
  | some assoc =>
    dsimp only
    split
    · simp [rshift]
    · split
      · simp [rshift]
      · split
        · simp [rshift]
        · exact validate_assoc_functions_shift v env assoc a b

/-- `validate_service` only adds to the warning counter it starts from. -/
theorem validate_service_shift (v : Validator) (env : Env) (nsd : Option String)
    (a b : Nat) :
    validate_service v env nsd (a + b) = rshift a (validate_service v env nsd b) := by
  unfold validate_service
  cases assert_configuration .validate_service v with
  | some r => simp [rshift]
  | none =>
    dsimp only
    cases env.createService nsd with
    | none => simp [rshift]
    | some sd =>
      dsimp only
      split
      · simp [rshift]
      · have hint : (if v.integrity then validate_service_integrity v env sd (a + b)
            else RunResult.returned (some true) (a + b)) =
            rshift a (if v.integrity then validate_service_integrity v env sd b
              else RunResult.returned (some true) b) := by
          split
          · exact validate_service_integrity_shift v env sd a b
          · simp [rshift]
        rw [hint]
        cases (if v.integrity then validate_service_integrity v env sd b
            else RunResult.returned (some true) b) with
        | aborted r => simp [rshift]
        | crashed => simp [rshift]
        | returned r1 w1 =>
          dsimp [rshift]
          split
          · simp [rshift]
          · split
            · rw [validate_service_topology_shift sd a w1]
              cases validate_service_topology sd w1 with
              | none => simp [oshift, rshift]
              | some rw2 =>
                obtain ⟨r2, w2⟩ := rw2
                dsimp [oshift]
                split <;> simp [rshift]
            · simp [rshift]

/-- C8 (amended): re-running `validate_service` on the same instance with an
unchanged descriptor and unchanged candidate directory returns the same
pass/fail value, and each run adds the same amount to the warning counter —
the counter accumulates, so the totals after the two runs agree exactly when
that amount is zero. -/
theorem C8_rerun_same_outcome_accumulated_warnings (v : Validator) (env : Env)
    (nsd : Option String) (w w1 : Nat) (s : Option Bool)
    (h : validate_service v env nsd w = .returned s w1) :
    w ≤ w1 ∧
    validate_service v env nsd w1 = .returned s (w1 + (w1 - w)) := by
  have hshift := validate_service_shift v env nsd w 0
  rw [Nat.add_zero] at hshift
  cases hbase : validate_service v env nsd 0 with
  | aborted r =>
    rw [hbase] at hshift; rw [hshift] at h; exact absurd h (by simp [rshift])
  | crashed =>
    rw [hbase] at hshift; rw [hshift] at h; exact absurd h (by simp [rshift])
  | returned s0 d =>
    rw [hbase] at hshift
    rw [hshift] at h
    simp only [rshift, RunResult.returned.injEq] at h
    obtain ⟨hs, hw⟩ := h
    have h2 := validate_service_shift v env nsd w1 0
    rw [Nat.add_zero, hbase] at h2
    refine ⟨by omega, ?_⟩
    rw [h2]
    simp only [rshift, RunResult.returned.injEq]
    exact ⟨hs, by omega⟩

/-- Witness for C8: the second run on the cyclic-forwarding-path service,
started at the counter value the first run left, returns success again with
one more warning. -/
theorem C8_rerun_same_outcome_accumulated_warnings_witness :
    validate_service initValidator cyclePathEnv (some "nsd.yml") 1 =
      RunResult.returned (some true) 2 :=
  (C8_rerun_same_outcome_accumulated_warnings initValidator cyclePathEnv
    (some "nsd.yml") 0 1 (some true) rfl).2

/-- Counterexample for C8 as stated: on a service with a cyclic forwarding
path, the first run ends with the counter at 1 and the second at 2 — the
counts after the two runs are not identical. -/
theorem C8_counterexample_warning_accumulation :
    validate_service initValidator cyclePathEnv (some "nsd.yml") 0 =
      RunResult.returned (some true) 1 ∧
    validate_service initValidator cyclePathEnv (some "nsd.yml") 1 =
      RunResult.returned (some true) 2 ∧
    (1 : Nat) ≠ 2 :=
  ⟨rfl, rfl, by decide⟩

/-- Adding a node keeps the node list non-empty. -/
theorem addNode_nodes_ne_nil (g : NGraph) (n : String) :
    (g.addNode n).nodes ≠ [] := by
  unfold NGraph.addNode
  split
  · rename_i h
    intro hnil
    rw [hnil] at h
    simp [List.contains] at h
  · simp

/-- Adding an edge keeps the node list non-empty. -/
theorem addEdge_nodes_ne_nil (g : NGraph) (a b : String) :
    (g.addEdge a b).nodes ≠ [] := by
  unfold NGraph.addEdge
  dsimp only
  split
  · exact addNode_nodes_ne_nil _ b
  · exact addNode_nodes_ne_nil _ b

/-- The path graph of a non-empty trace has a node. -/
theorem addPathAux_nodes_ne_nil (trace : List String) :
    ∀ g : NGraph, trace ≠ [] → (addPathAux g trace).nodes ≠ [] := by
  induction trace with
  | nil => intro g h; exact absurd rfl h
  | cons x rest ih =>
    intro g _
    cases rest with
    | nil => exact addNode_nodes_ne_nil g x
    | cons y rest' => exact ih (g.addEdge x y) (by simp)

/-- The forwarding-path analysis returns the starting counter plus one per
BREAK-free trace on which the detector finds a cycle, provided no BREAK-free
trace is empty. -/
theorem analyse_fw_paths_count (fws : List (String × List String))
    (h : ∀ p ∈ fws, p.2.contains "BREAK" = false → p.2 ≠ []) (w : Nat) :
    analyse_fw_paths fws w = some (w + cycleWarnCount fws) := by
  induction fws generalizing w with
  | nil => simp [analyse_fw_paths, cycleWarnCount]
  | cons hd rest ih =>
    obtain ⟨fpid, trace⟩ := hd
    have hrest : ∀ p ∈ rest, p.2.contains "BREAK" = false → p.2 ≠ [] :=
      fun p hp => h p (List.mem_cons_of_mem _ hp)
    simp only [analyse_fw_paths]
    by_cases hbr : trace.contains "BREAK" = true
    · rw [if_pos hbr, ih hrest]
      have hmem : "BREAK" ∈ trace := by simpa using hbr
      have hcnt : cycleWarnCount ((fpid, trace) :: rest) = cycleWarnCount rest := by
        simp [cycleWarnCount, hmem]
      rw [hcnt]
    · rw [if_neg hbr]
      have hbf : trace.contains "BREAK" = false := by
        cases hc : trace.contains "BREAK" with
        | false => rfl
        | true => exact absurd hc hbr
      have hne : trace ≠ [] := h (fpid, trace) (List.mem_cons_self _ _) hbf
      have hgne : (addPathGraph trace).nodes ≠ [] :=
        addPathAux_nodes_ne_nil trace NGraph.empty hne
      obtain ⟨s, hs⟩ : ∃ s, (addPathGraph trace).nodes.head? = some s := by
        cases hnn : (addPathGraph trace).nodes with
        | nil => exact absurd hnn hgne
        | cons x xs => exact ⟨x, rfl⟩
      rw [hs]
      dsimp only
      cases hfc : find_graph_cycles (addPathGraph trace) s with
      | some c =>
        dsimp only
        by_cases hlen : c.length > 0
        · rw [if_pos hlen, ih hrest]
          have hpcf : pathCycleFound trace = true := by
            unfold pathCycleFound
            rw [hs]
            dsimp only
            rw [hfc]
            simpa using hlen
          have hmem : "BREAK" ∉ trace := by simpa using hbf
          have hcnt : cycleWarnCount ((fpid, trace) :: rest) = cycleWarnCount rest + 1 := by
            simp [cycleWarnCount, hmem, hpcf]
          rw [hcnt]
          exact congrArg some (by omega)
        · rw [if_neg hlen, ih hrest]
          have hpcf : pathCycleFound trace = false := by
            unfold pathCycleFound
            rw [hs]
            dsimp only
            rw [hfc]
            simpa using hlen
          have hmem : "BREAK" ∉ trace := by simpa using hbf
          have hcnt : cycleWarnCount ((fpid, trace) :: rest) = cycleWarnCount rest := by
            simp [cycleWarnCount, hmem, hpcf]
          rw [hcnt]
      | none =>
        dsimp only
        rw [ih hrest]
        have hpcf : pathCycleFound trace = false := by
          unfold pathCycleFound
          rw [hs]
          dsimp only
          rw [hfc]
        have hmem : "BREAK" ∉ trace := by simpa using hbf
        have hcnt : cycleWarnCount ((fpid, trace) :: rest) = cycleWarnCount rest := by
          simp [cycleWarnCount, hmem, hpcf]
        rw [hcnt]

/-- C3 (amended): topology warning events never fail a stage — the service
topology stage succeeds whatever the connectivity verdict and however many
BREAK paths it sees, and only a detected cycle increments the warning counter,
once per cycle-carrying forwarding path; function topology likewise succeeds
and counts one warning exactly when its graph shows a cycle. -/
theorem C3_topology_warnings_non_fatal_counting :
    (∀ (sd : ServiceData) (w : Nat),
      sd.load_fw_paths_ok = true →
      (∀ p ∈ sd.fw_paths, p.2.contains "BREAK" = false → p.2 ≠ []) →
      validate_service_topology sd w =
        some (some true, w + cycleWarnCount sd.fw_paths)) ∧
    (∀ (f : FunData) (w : Nat), f.graph.nodes ≠ [] →
      validate_function_topology f w =
        some (some true, w + (if graphCycleFound f.graph then 1 else 0))) := by
  constructor
  · intro sd w hok h
    unfold validate_service_topology
    rw [if_neg (by simp [hok]), analyse_fw_paths_count sd.fw_paths h w]
  · intro f w h
    unfold validate_function_topology
    obtain ⟨s, hs⟩ : ∃ s, f.graph.nodes.head? = some s := by
      cases hnn : f.graph.nodes with
      | nil => exact absurd hnn h
      | cons x xs => exact ⟨x, rfl⟩
    rw [hs]
    dsimp only
    cases hfc : find_graph_cycles f.graph s with
    | some c =>
      dsimp only
      by_cases hlen : c.length > 0
      · rw [if_pos hlen]
        have hgcf : graphCycleFound f.graph = true := by
          unfold graphCycleFound
          rw [hs]
          dsimp only
          rw [hfc]
          simpa using hlen
        rw [hgcf]
        rfl
      · rw [if_neg hlen]
        have hgcf : graphCycleFound f.graph = false := by
          unfold graphCycleFound
          rw [hs]
          dsimp only
          rw [hfc]
          simpa using hlen
        rw [hgcf]
        rfl
    | none =>
      have hgcf : graphCycleFound f.graph = false := by
        unfold graphCycleFound
        rw [hs]
        dsimp only
        rw [hfc]
      rw [hgcf]
      rfl

/-- Witness for C3: the cyclic-forwarding-path service passes the topology
stage with exactly one warning counted. -/
theorem C3_topology_warnings_non_fatal_counting_witness :
    validate_service_topology cyclePathService 0 = some (some true, 1) :=
  C3_topology_warnings_non_fatal_counting.1 cyclePathService 0 rfl (by decide)

/-- Counterexample for C3 as stated: a disconnected service graph and a broken
forwarding path are two warning events, yet the topology stage returns success
with the warning counter untouched. -/
theorem C3_counterexample_uncounted_warning_events :
    warnService.graph_connected = false ∧
    warnService.fw_paths = [("fp1", ["h1", "BREAK", "h2"])] ∧
    validate_service_topology warnService 0 = some (some true, 0) :=
  ⟨rfl, rfl, rfl⟩

/-- Truthiness of a stage result is the `True` value. -/
theorem truthy_eq_true_iff (r : Option Bool) : truthy r = true ↔ r = some true := by
  cases r with
  | none => simp [truthy]
  | some b => cases b <;> simp [truthy]

/-- The returned value is unaffected by a warning shift. -/
theorem statusOf_oshift (a : Nat) (o : Option (Option Bool × Nat)) :
    statusOf (oshift a o) = statusOf o := by
  cases o <;> simp [statusOf, oshift]

/-- The directory loop: success exactly when every file passes, the falsy
return on a failing file, and the attempted files are the passing ones up to
and including the first failure. -/
theorem validate_function_files_spec (v : Validator) (env : Env) :
    ∀ (fs : List String) (w : Nat),
      (∀ f ∈ fs, (validate_function_file v env f 0).isSome = true) →
      ((∀ f ∈ fs, fileOk v env f = true) →
        statusOf (validate_function_files v env fs w).1 = some (some true)) ∧
      ((¬ ∀ f ∈ fs, fileOk v env f = true) →
        statusOf (validate_function_files v env fs w).1 = some none) ∧
      (validate_function_files v env fs w).2 =
        fs.takeWhile (fileOk v env) ++ (fs.dropWhile (fileOk v env)).take 1 := by
  intro fs
  induction fs with
  | nil =>
    intro w _
    refine ⟨fun _ => rfl, fun hno => ?_, rfl⟩
    exact absurd (fun f hf => absurd hf (List.not_mem_nil f)) hno
  | cons f fs ih =>
    intro w h
    have hf0 : (validate_function_file v env f 0).isSome = true :=
      h f (List.mem_cons_self _ _)
    have hrest : ∀ g ∈ fs, (validate_function_file v env g 0).isSome = true :=
      fun g hg => h g (List.mem_cons_of_mem _ hg)
    have hsh := validate_function_file_shift v env f w 0
    rw [Nat.add_zero] at hsh
    cases hbase : validate_function_file v env f 0 with
    | none => rw [hbase] at hf0; simp at hf0
    | some rw0 =>
      obtain ⟨r0, d0⟩ := rw0
      have hw : validate_function_file v env f w = some (r0, w + d0) := by
        rw [hsh, hbase]; rfl
      by_cases hok : truthy r0 = true
      · have hr0 : r0 = some true := (truthy_eq_true_iff r0).mp hok
        subst hr0
        have hfok : fileOk v env f = true := by
          simp [fileOk, statusOf, hbase]
        simp only [validate_function_files, hw]
        rw [if_neg (by simp [truthy])]
        obtain ⟨ih1, ih2, ih3⟩ := ih (w + d0) hrest
        refine ⟨?_, ?_, ?_⟩
        · intro hall
          exact ih1 (fun g hg => hall g (List.mem_cons_of_mem _ hg))
        · intro hnall
          refine ih2 (fun hall => hnall ?_)
          intro g hg
          rcases List.mem_cons.mp hg with rfl | hg'
          · exact hfok
          · exact hall g hg'
        · rw [List.takeWhile_cons_of_pos hfok, List.dropWhile_cons_of_pos hfok]
          dsimp only
          rw [ih3, List.cons_append]
      · have hnok : truthy r0 = false := by
          cases ht : truthy r0 with
          | false => rfl
          | true => exact absurd ht hok
        have hr0 : r0 ≠ some true := fun he => hok (by rw [he]; rfl)
        have hfok : fileOk v env f = false := by
          simp [fileOk, statusOf, hbase, hr0]
        simp only [validate_function_files, hw]
        rw [if_pos (by simp [hnok])]
        refine ⟨?_, fun _ => rfl, ?_⟩
        · intro hall
          exact absurd (hall f (List.mem_cons_self _ _)) (by simp [hfok])
        · rw [List.takeWhile_cons_of_neg (by simp [hfok]),
              List.dropWhile_cons_of_neg (by simp [hfok])]
          rfl

/-- C7: `validate_function` on a directory succeeds exactly when every listed
descriptor file validates; on any failure the call returns the falsy value,
and the loop attempts exactly the files up to and including the first failing
one, in listing order. -/
theorem C7_validate_function_directory (v : Validator) (env : Env)
    (path : String) (w : Nat)
    (hass : assert_configuration .validate_function v = none)
    (hdir : env.isDir path = true)
    (hok : ∀ f ∈ env.listFilesOf path, (validate_function_file v env f 0).isSome = true) :
    (runStatus (validate_function v env path w) = some (some true) ↔
      ∀ f ∈ env.listFilesOf path, fileOk v env f = true) ∧
    ((¬ ∀ f ∈ env.listFilesOf path, fileOk v env f = true) →
      runStatus (validate_function v env path w) = some none) ∧
    (validate_function_files v env (env.listFilesOf path) w).2 =
      (env.listFilesOf path).takeWhile (fileOk v env) ++
        ((env.listFilesOf path).dropWhile (fileOk v env)).take 1 := by
  obtain ⟨h1, h2, h3⟩ := validate_function_files_spec v env (env.listFilesOf path) w hok
  have hrun : runStatus (validate_function v env path w) =
      statusOf (validate_function_files v env (env.listFilesOf path) w).1 := by
    simp only [validate_function, hass]
    rw [if_pos hdir]
    cases (validate_function_files v env (env.listFilesOf path) w).1 with
    | none => rfl
    | some rw' => obtain ⟨r, w'⟩ := rw'; rfl
  refine ⟨?_, fun hn => by rw [hrun]; exact h2 hn, h3⟩
  constructor
  · intro htrue
    by_contra hn
    rw [hrun, h2 hn] at htrue
    simp at htrue
  · intro hall
    rw [hrun]
    exact h1 hall

/-- Witness for C7: on the three-file directory whose second file fails to
parse, the call returns the falsy value and only the first two files are
attempted. -/
theorem C7_validate_function_directory_witness :
    runStatus (validate_function initValidator dirEnv "vnfds" 0) = some none ∧
    (validate_function_files initValidator dirEnv ["f1.yml", "f2.yml", "f3.yml"] 0).2 =
      ["f1.yml", "f2.yml"] := by
  have h := C7_validate_function_directory initValidator dirEnv "vnfds" 0
    (by decide) (by decide) (by decide)
  refine ⟨h.2.1 ?_, ?_⟩
  · intro hall
    exact absurd (hall "f2.yml" (by decide)) (by decide)
  · exact h.2.2.trans (by decide)

end SonValidate
